import Mathlib

/-!
Verification of the library-mode binding-generation pipeline
(`uniffi_bindgen/src/library_mode.rs`).

The Rust code is shallowly embedded: Rust string slices become `List Char`,
fallible functions return `Except Err`, and the external collaborators
(filesystem, cargo metadata command, UDL text processing, configuration
loading and the per-language emitters) are passed in as explicit function
parameters bundled in `Externals`.
-/

set_option autoImplicit false

deriving instance DecidableEq for Except

namespace LibraryMode

/-- Character-list model of a Rust string slice. -/
abbrev Str := List Char

/-- Model of `camino::Utf8Path`, reduced to the single operation the code
under verification performs on it: extracting the base name
(`Utf8Path::file_name`, which yields `None` for pathological paths). -/
structure Utf8Path where
  file_name : Option Str
deriving DecidableEq

/-- Model of Rust `str::strip_prefix`: remove `p` from the front of `s`,
returning `none` when `p` does not start `s`. -/
def stripLeading : Str → Str → Option Str
  | [], s => some s
  | _ :: _, [] => none
  | p :: ps, c :: cs => if p = c then stripLeading ps cs else none

/-- Model of Rust `str::strip_suffix`: remove `suf` from the end of `s`,
returning `none` when `s` does not end with `suf`. -/
def stripTrailing (suf s : Str) : Option Str :=
  (stripLeading suf.reverse s.reverse).map List.reverse

/-- The extension list of `calc_cdylib_name`, in the order the code tries
them (its name keeps the source's spelling). -/
def cdylib_extentions : List Str := [".so".data, ".dll".data, ".dylib".data]

/-- The `for ext in cdylib_extentions` loop body of `calc_cdylib_name`:
return the remainder for the first extension that strips, else `none`. -/
def strip_first_ext : List Str → Str → Option Str
  | [], _ => none
  | e :: rest, filename =>
    match stripTrailing e filename with
    | some f => some f
    | none => strip_first_ext rest filename

/-- Embedding of `calc_cdylib_name`: if `library_path` is a C dynamic
library, return its name. -/
def calc_cdylib_name (library_path : Utf8Path) : Option Str :=
  match library_path.file_name with
  | none => none
  | some filename =>
    let filename := (stripLeading "lib".data filename).getD filename
    strip_first_ext cdylib_extentions filename

/-! ## Data model

`cargo_metadata` values (`Package`, its targets and dependencies) and
`uniffi_meta` values (`Metadata`, `MetadataGroup`) are embedded with exactly
the fields the code under verification reads. -/

/-- One entry of `Package::dependencies` (`cargo_metadata::Dependency`);
the code reads only its `name`. -/
structure Dependency where
  name : Str
deriving DecidableEq

/-- One entry of `Package::targets` (`cargo_metadata::Target`); the code
reads only its `name`. -/
structure CrateTarget where
  name : Str
deriving DecidableEq

/-- Model of `cargo_metadata::Package`. `manifest_dir` stands for
`package.manifest_path.parent()`, the crate root. -/
structure Package where
  name : Str
  targets : List CrateTarget
  dependencies : List Dependency
  manifest_dir : Str
deriving DecidableEq

/-- Model of `cargo_metadata::Metadata`: the package list of the build
graph. -/
structure CargoMetadata where
  packages : List Package
deriving DecidableEq

/-- Model of `uniffi_meta::Metadata`: the code distinguishes only the
`UdlFile` variant (carrying the UDL file name); every other variant is
opaque to it. -/
inductive Metadata where
  | udlFile (name : Str)
  | other (tag : Nat)
deriving DecidableEq

/-- Model of `uniffi_meta::MetadataGroup`: a namespace crate name plus the
metadata items of that component. -/
structure MetadataGroup where
  crate_name : Str
  items : List Metadata
deriving DecidableEq

/-- Modelled from the spec: the ConfigurationObject (`Config`, defined
outside this file) is opaque to the pipeline, so it is represented by an
abstract value; all operations on it are supplied in `Externals`. -/
abbrev Config := Nat

/-- Modelled from the spec: the InterfaceModel (`ComponentInterface`,
defined outside this file) is built by folding metadata groups into an
accumulator, so it is represented by its fold trace: the list of metadata
groups folded in, in fold order. -/
abbrev ComponentInterface := List MetadataGroup

/-- Modelled from the spec: the target-language tags. The code under
verification distinguishes only Swift from the rest. -/
inductive TargetLanguage where
  | kotlin
  | swift
  | python
  | ruby
deriving DecidableEq

/-- The fatal errors of the pipeline, one variant per `bail!`/`?` site. -/
inductive Err where
  | cargoMetadata
  | packageResolve (n : Nat) (crate_name : Str)
  | udlFileNotFound (path : Str)
  | multipleUdlFiles (n : Nat) (crate_name : Str)
  | foldConflict
  | loadConfig
  | readFile
  | parseUdl
  | crateNotFound (crate_name : Str)
  | ambiguousCrate (n : Nat) (crate_name : Str)
  | cdylibRequired (language : TargetLanguage)
  | writeBindings
deriving DecidableEq

/-- The external collaborators the pipeline calls, passed explicitly:
filesystem reads, the UDL text processing, the `Config` operations and the
per-language emitters all live outside the file under verification. -/
structure Externals where
  fs_exists : Str → Bool
  fs_read : Str → Except Err Str
  parse_udl : Str → Except Err MetadataGroup
  fold_ok : ComponentInterface → MetadataGroup → Bool
  load_initial : Str → Except Err Config
  update_from_cdylib_name : Config → Str → Config
  update_from_ci : Config → ComponentInterface → Config
  update_from_dependency_configs : Config → List (Str × Config) → Config
  write_bindings : Config → ComponentInterface → TargetLanguage → Except Err Unit

/-- Modelled from the spec: `ComponentInterface::add_metadata` folds one
metadata group into the accumulator and may fail on a conflicting
redeclaration (`fold_ok` decides); on success the group is appended to the
fold trace. -/
def add_metadata (ext : Externals) (ci : ComponentInterface) (group : MetadataGroup) :
    Except Err ComponentInterface :=
  if ext.fold_ok ci group then .ok (ci ++ [group]) else .error .foldConflict

/-- Embedding of `Source`: the unit of work for one logical component. -/
structure Source where
  package : Package
  crate_name : Str
  ci : ComponentInterface
  config : Config
deriving DecidableEq

/-- Model of `camino::Utf8Path::join` for the relative paths the code
builds. -/
def path_join (a b : Str) : Str := a ++ '/' :: b

/-- The UDL-file references of a metadata group: the
`filter_map(UdlFile)` at the top of `load_udl_metadata`, projected to the
file name the code goes on to use. -/
def udl_items_of (group : MetadataGroup) : List Str :=
  group.items.filterMap fun i =>
    match i with
    | .udlFile name => some name
    | .other _ => none

/-- Embedding of `find_package_by_crate_name`: the unique package with a
build target whose name, hyphens replaced by underscores, equals the crate
name; any other match count is a fatal error carrying that count. -/
def replace_dashes (s : Str) : Str :=
  s.map fun c => if c = '-' then '_' else c

/-- Embedding of `find_package_by_crate_name` (see `replace_dashes`). -/
def find_package_by_crate_name (metadata : CargoMetadata) (crate_name : Str) :
    Except Err Package :=
  let matching := metadata.packages.filter fun p =>
    p.targets.any fun t => replace_dashes t.name == crate_name
  match matching with
  | [p] => .ok p
  | l => .error (.packageResolve l.length crate_name)

/-- Embedding of `load_udl_metadata`: no UDL reference loads nothing, one
reads `<crate_root>/src/<name>.udl` (missing file is fatal) and parses it,
two or more are fatal regardless of the filesystem. -/
def load_udl_metadata (ext : Externals) (group : MetadataGroup) (crate_root : Str)
    (crate_name : Str) : Except Err (Option MetadataGroup) :=
  match udl_items_of group with
  | [] => .ok none
  | [ci_name] =>
    let ci_path := path_join (path_join crate_root "src".data) (ci_name ++ ".udl".data)
    if ext.fs_exists ci_path then
      match ext.fs_read ci_path with
      | .error e => .error e
      | .ok udl =>
        match ext.parse_udl udl with
        | .error e => .error e
        | .ok parsed => .ok (some parsed)
    else .error (.udlFileNotFound ci_path)
  | items => .error (.multipleUdlFiles items.length crate_name)

/-- The per-group body of `find_sources`: resolve the package, build the
`ComponentInterface` (UDL metadata first when present, then the in-binary
group), then load and update the `Config`. -/
def materialize_one (ext : Externals) (cargo_metadata : CargoMetadata)
    (cdylib_name : Option Str) (group : MetadataGroup) : Except Err Source :=
  match find_package_by_crate_name cargo_metadata group.crate_name with
  | .error e => .error e
  | .ok package =>
    let crate_root := package.manifest_dir
    let crate_name := group.crate_name
    match load_udl_metadata ext group crate_root crate_name with
    | .error e => .error e
    | .ok udl =>
      let ci0 : ComponentInterface := []
      match
        (match udl with
         | some metadata => add_metadata ext ci0 metadata
         | none => .ok ci0 : Except Err ComponentInterface) with
      | .error e => .error e
      | .ok ci1 =>
        match add_metadata ext ci1 group with
        | .error e => .error e
        | .ok ci =>
          match ext.load_initial crate_root with
          | .error e => .error e
          | .ok config0 =>
            let config1 :=
              match cdylib_name with
              | some n => ext.update_from_cdylib_name config0 n
              | none => config0
            let config := ext.update_from_ci config1 ci
            .ok { package := package, crate_name := crate_name, ci := ci, config := config }

/-- Embedding of `find_sources`: materialize every metadata group in
order, stopping at the first failure (the `collect::<Result<_>>`). -/
def find_sources (ext : Externals) (cargo_metadata : CargoMetadata)
    (cdylib_name : Option Str) : List MetadataGroup → Except Err (List Source)
  | [] => .ok []
  | g :: rest =>
    match materialize_one ext cargo_metadata cdylib_name g with
    | .error e => .error e
    | .ok src =>
      match find_sources ext cargo_metadata cdylib_name rest with
      | .error e => .error e
      | .ok srcs => .ok (src :: srcs)

/-- The `config_map` built for the source at index `i` in the inheritance
loop of `generate_bindings`: iterate over the other sources (those before
`i`, then those after), keep the ones whose package name is one of the
dependency names of source `i`, and pair each kept source's crate name
with its config. -/
def config_map (sources : List Source) (i : Nat) : List (Str × Config) :=
  match sources[i]? with
  | none => []
  | some source =>
    let dependencies := source.package.dependencies.map Dependency.name
    (sources.take i ++ sources.drop (i + 1)).filterMap fun s =>
      if s.package.name ∈ dependencies then some (s.crate_name, s.config) else none

/-- One iteration of the inheritance loop: replace source `i`'s config by
the result of `update_from_dependency_configs` on its `config_map`. -/
def inherit_step (ext : Externals) (sources : List Source) (i : Nat) : List Source :=
  match sources[i]? with
  | none => sources
  | some source =>
    sources.set i
      { source with
        config := ext.update_from_dependency_configs source.config (config_map sources i) }

/-- The `for i in 0..sources.len()` inheritance loop of
`generate_bindings`. -/
def inherit_configs (ext : Externals) (sources : List Source) : List Source :=
  (List.range sources.length).foldl (inherit_step ext) sources

/-- The optional crate-name filter block of `generate_bindings`: absent
filter keeps every source; otherwise exactly one source with that crate
name must exist and becomes the whole list. -/
def select_sources (sources : List Source) (crate_name : Option Str) :
    Except Err (List Source) :=
  match crate_name with
  | none => .ok sources
  | some crate_name =>
    let matching := sources.filter fun s => s.crate_name == crate_name
    match matching with
    | [] => .error (.crateNotFound crate_name)
    | [m] => .ok [m]
    | ms => .error (.ambiguousCrate ms.length crate_name)

/-- The inner `for language in target_languages` loop of the emission pass
for one source (positionally identified by `i`): each pair is first
validated (`cdylib_name.is_none() && language != Swift` is fatal) and only
then handed to `write_bindings`; the returned list records the pairs for
which the emitter was actually invoked, in order. -/
def emit_source (ext : Externals) (cdylib_name : Option Str) (i : Nat) (source : Source) :
    List TargetLanguage → List (Nat × TargetLanguage) × Option Err
  | [] => ([], none)
  | language :: rest =>
    if cdylib_name = none ∧ language ≠ TargetLanguage.swift then
      ([], some (.cdylibRequired language))
    else
      match ext.write_bindings source.config source.ci language with
      | .error e => ([(i, language)], some e)
      | .ok _ =>
        let r := emit_source ext cdylib_name i source rest
        ((i, language) :: r.1, r.2)

/-- The outer `for source in sources` loop of the emission pass, stopping
at the first error. -/
def emit_loop (ext : Externals) (cdylib_name : Option Str) :
    Nat → List Source → List TargetLanguage → List (Nat × TargetLanguage) × Option Err
  | _, [], _ => ([], none)
  | i, source :: rest, target_languages =>
    let r := emit_source ext cdylib_name i source target_languages
    match r.2 with
    | some e => (r.1, some e)
    | none =>
      let r2 := emit_loop ext cdylib_name (i + 1) rest target_languages
      (r.1 ++ r2.1, r2.2)

/-- Embedding of `generate_bindings`: run cargo metadata, identify the
cdylib, materialize the sources, run the inheritance loop, apply the
optional crate filter, then emit per (source, language) pair. The
`fs::create_dir_all` call is directory setup with no bearing on the
pipeline's data and is not modelled. -/
def generate_bindings (ext : Externals) (cargo_result : Except Err CargoMetadata)
    (groups : List MetadataGroup) (library_path : Utf8Path) (crate_name : Option Str)
    (target_languages : List TargetLanguage) : Except Err (List Source) :=
  match cargo_result with
  | .error e => .error e
  | .ok cargo_metadata =>
    let cdylib_name := calc_cdylib_name library_path
    match find_sources ext cargo_metadata cdylib_name groups with
    | .error e => .error e
    | .ok sources =>
      let sources := inherit_configs ext sources
      match select_sources sources crate_name with
      | .error e => .error e
      | .ok sources =>
        match (emit_loop ext cdylib_name 0 sources target_languages).2 with
        | some e => .error e
        | none => .ok sources

/-! ## Event trace

The temporal claims are settled on the observable event sequence of a run:
materializing the source of index `i`, folding dependency configs into the
source of index `i`, and invoking the emitter for a (source, language)
pair. -/

/-- The observable events of one `generate_bindings` run. -/
inductive Event where
  | mat (i : Nat)
  | fold (i : Nat)
  | emit (i : Nat) (language : TargetLanguage)
deriving DecidableEq

/-- The pipeline stage an event belongs to, in execution order. -/
def phase : Event → Nat
  | .mat _ => 0
  | .fold _ => 1
  | .emit _ _ => 2

/-- The emitter-invocation events of the emission pass (empty when
selection failed). -/
def emit_trace (ext : Externals) (cdylib_name : Option Str)
    (selection : Except Err (List Source)) (target_languages : List TargetLanguage) :
    List Event :=
  match selection with
  | .error _ => []
  | .ok selected =>
    ((emit_loop ext cdylib_name 0 selected target_languages).1).map fun p =>
      Event.emit p.1 p.2

/-- The event trace of a `generate_bindings` run: the materializations
performed by `find_sources` (all of them on success, the completed ones on
failure), then one fold per source index, then the emitter invocations of
the emission pass. -/
def run_trace (ext : Externals) (cargo_result : Except Err CargoMetadata)
    (groups : List MetadataGroup) (library_path : Utf8Path) (crate_name : Option Str)
    (target_languages : List TargetLanguage) : List Event :=
  match cargo_result with
  | .error _ => []
  | .ok cargo_metadata =>
    let cdylib_name := calc_cdylib_name library_path
    match find_sources ext cargo_metadata cdylib_name groups with
    | .error _ =>
      (List.range
        (groups.takeWhile fun g =>
          (materialize_one ext cargo_metadata cdylib_name g).isOk).length).map Event.mat
    | .ok sources =>
      (List.range sources.length).map Event.mat
        ++ (List.range sources.length).map Event.fold
        ++ emit_trace ext cdylib_name
            (select_sources (inherit_configs ext sources) crate_name) target_languages

/-! ## Concrete fixtures

Closed instances used by the witness and counterexample theorems. -/

/-- Externals in which every collaborator succeeds and every `Config`
operation is the identity. -/
def exExt : Externals where
  fs_exists := fun _ => true
  fs_read := fun _ => .ok []
  parse_udl := fun _ => .ok ⟨[], []⟩
  fold_ok := fun _ _ => true
  load_initial := fun _ => .ok 0
  update_from_cdylib_name := fun c _ => c
  update_from_ci := fun c _ => c
  update_from_dependency_configs := fun c _ => c
  write_bindings := fun _ _ _ => .ok ()

/-- A metadata group for a crate `core` with one in-binary item and no UDL
reference. -/
def exGroup : MetadataGroup := ⟨"core".data, [Metadata.other 0]⟩

/-- The package owning `exGroup`. -/
def exPkg : Package := ⟨"core".data, [⟨"core".data⟩], [], "root".data⟩

/-- A build graph containing exactly `exPkg`. -/
def exCargo : CargoMetadata := ⟨[exPkg]⟩

/-- The source `materialize_one` produces from `exGroup` under `exExt`. -/
def exSrc : Source := ⟨exPkg, "core".data, [exGroup], 0⟩

/-- A library path that is not a dynamic library. -/
def exTxtPath : Utf8Path := ⟨some "notadll.txt".data⟩

/-- A metadata group for `core` that references one UDL file. -/
def exUdlGroup : MetadataGroup := ⟨"core".data, [Metadata.udlFile "core".data]⟩

/-- The metadata group the UDL parse of the fixtures returns. -/
def exParsed : MetadataGroup := ⟨"core".data, [Metadata.other 7]⟩

/-- Externals whose UDL parse returns `exParsed`. -/
def exUdlExt : Externals := { exExt with parse_udl := fun _ => .ok exParsed }

/-- A package whose name `foo-bar` contains a hyphen; its build target
(and hence the crate identity of its source) is the normalized
`foo_bar`. -/
def exHyphenPkg : Package := ⟨"foo-bar".data, [⟨"foo_bar".data⟩], [], "rootdep".data⟩

/-- The source of `exHyphenPkg`: package name `foo-bar`, crate identity
`foo_bar`. -/
def exDepSrc : Source := ⟨exHyphenPkg, "foo_bar".data, [], 1⟩

/-- A package `app` that declares the dependency name `foo-bar`. -/
def exAppPkg : Package := ⟨"app".data, [⟨"app".data⟩], [⟨"foo-bar".data⟩], "rootapp".data⟩

/-- The source of `exAppPkg`. -/
def exAppSrc : Source := ⟨exAppPkg, "app".data, [], 0⟩

/-- The concrete values of the repository's `calc_cdylib_name_is_correct`
unit test, plus the behaviours the fixtures rely on. -/
theorem calc_cdylib_name_unit_tests :
    calc_cdylib_name ⟨some "libuniffi.so".data⟩ = some "uniffi".data ∧
    calc_cdylib_name ⟨some "libuniffi.dylib".data⟩ = some "uniffi".data ∧
    calc_cdylib_name ⟨some "uniffi.dll".data⟩ = some "uniffi".data ∧
    calc_cdylib_name ⟨some "libuniffi.dll".data⟩ = some "uniffi".data ∧
    calc_cdylib_name exTxtPath = none := by decide

/-! ## Helper lemmas -/

/-- Inversion of a successful `materialize_one`: expose the resolved
package, the loaded UDL metadata and the two `ComponentInterface` fold
steps. -/
theorem materialize_one_ok (ext : Externals) (cargo : CargoMetadata) (cdylib : Option Str)
    (group : MetadataGroup) (src : Source)
    (h : materialize_one ext cargo cdylib group = .ok src) :
    ∃ (pkg : Package) (udl : Option MetadataGroup) (ci1 : ComponentInterface),
      find_package_by_crate_name cargo group.crate_name = .ok pkg ∧
      load_udl_metadata ext group pkg.manifest_dir group.crate_name = .ok udl ∧
      (match udl with
       | some metadata => add_metadata ext [] metadata
       | none => .ok ([] : ComponentInterface)) = .ok ci1 ∧
      add_metadata ext ci1 group = .ok src.ci := by
  simp only [materialize_one] at h
  split at h
  · exact Except.noConfusion h
  rename_i pkg hpkg
  split at h
  · exact Except.noConfusion h
  rename_i udl hudl
  split at h
  · exact Except.noConfusion h
  rename_i ci1 hci1
  split at h
  · exact Except.noConfusion h
  rename_i ci hci
  split at h
  · exact Except.noConfusion h
  rename_i c0 hc0
  injection h with h2
  exact ⟨pkg, udl, ci1, hpkg, hudl, hci1, by rw [← h2]; exact hci⟩

/-- A successful `load_udl_metadata` on a group with exactly one UDL
reference always carries parsed metadata. -/
theorem load_udl_metadata_single_ok (ext : Externals) (group : MetadataGroup)
    (crate_root crate_name : Str) (nm : Str) (x : Option MetadataGroup)
    (hitems : udl_items_of group = [nm])
    (h : load_udl_metadata ext group crate_root crate_name = .ok x) :
    ∃ m, x = some m := by
  simp only [load_udl_metadata, hitems] at h
  split at h
  · split at h
    · exact Except.noConfusion h
    split at h
    · exact Except.noConfusion h
    rename_i parsed hparsed
    injection h with h2
    exact ⟨parsed, h2.symm⟩
  · exact Except.noConfusion h

/-- Successful `add_metadata` appends the group to the fold trace. -/
theorem add_metadata_ok (ext : Externals) (ci ci' : ComponentInterface)
    (group : MetadataGroup) (h : add_metadata ext ci group = .ok ci') :
    ci' = ci ++ [group] := by
  simp only [add_metadata] at h
  split at h
  · injection h with h2
    exact h2.symm
  · exact Except.noConfusion h

/-! ## C4: UDL reference handling of the Interface Materializer -/

/-- C4: a component group with no UDL-file record loads nothing (the
interface model is then built from the in-binary group alone); a group
with exactly one UDL-file record whose conventional path
`<crate_root>/src/<name>.udl` does not exist fails fatally with
`UdlFileNotFound`; a group with two or more UDL-file records fails fatally
with `MultipleUdlFiles` no matter what the filesystem contains. -/
theorem load_udl_metadata_spec (ext : Externals) (group : MetadataGroup)
    (crate_root crate_name : Str) :
    (udl_items_of group = [] →
      load_udl_metadata ext group crate_root crate_name = .ok none ∧
      ∀ (cargo : CargoMetadata) (cdylib : Option Str) (src : Source),
        materialize_one ext cargo cdylib group = .ok src → src.ci = [group]) ∧
    (∀ nm : Str, udl_items_of group = [nm] →
      ext.fs_exists (path_join (path_join crate_root "src".data) (nm ++ ".udl".data)) = false →
      load_udl_metadata ext group crate_root crate_name =
        .error (.udlFileNotFound
          (path_join (path_join crate_root "src".data) (nm ++ ".udl".data)))) ∧
    (2 ≤ (udl_items_of group).length →
      load_udl_metadata ext group crate_root crate_name =
        .error (.multipleUdlFiles (udl_items_of group).length crate_name)) := by
  refine ⟨fun h0 => ⟨by simp [load_udl_metadata, h0], ?_⟩, fun nm h1 hfs => ?_, fun h2 => ?_⟩
  · intro cargo cdylib src hm
    obtain ⟨pkg, udl, ci1, _, hudl, hci1, hci⟩ :=
      materialize_one_ok ext cargo cdylib group src hm
    rw [show load_udl_metadata ext group pkg.manifest_dir group.crate_name = .ok none from
      by simp [load_udl_metadata, h0]] at hudl
    injection hudl with hudl2
    subst hudl2
    simp only [] at hci1
    injection hci1 with hci12
    subst hci12
    have := add_metadata_ok ext [] src.ci group hci
    simpa using this
  · simp [load_udl_metadata, h1, hfs]
  · rcases hitems : udl_items_of group with _ | ⟨a, _ | ⟨b, t⟩⟩
    · rw [hitems] at h2; simp at h2
    · rw [hitems] at h2; simp at h2
    · rw [hitems] at h2
      simp [load_udl_metadata, hitems]

/-- Witness for C4: concrete groups with zero, one (missing file) and two
UDL references. -/
theorem load_udl_metadata_spec_witness :
    load_udl_metadata exExt exGroup "root".data "core".data = .ok none ∧
    load_udl_metadata
        { exExt with fs_exists := fun _ => false }
        ⟨"core".data, [Metadata.udlFile "core".data]⟩ "root".data "core".data =
      .error (.udlFileNotFound
        (path_join (path_join "root".data "src".data) ("core".data ++ ".udl".data))) ∧
    load_udl_metadata exExt
        ⟨"core".data, [Metadata.udlFile "a".data, Metadata.udlFile "b".data]⟩
        "root".data "core".data =
      .error (.multipleUdlFiles 2 "core".data) :=
  ⟨((load_udl_metadata_spec exExt exGroup "root".data "core".data).1 (by decide)).1,
   (load_udl_metadata_spec
       { exExt with fs_exists := fun _ => false }
       ⟨"core".data, [Metadata.udlFile "core".data]⟩ "root".data "core".data).2.1
     "core".data (by decide) (by decide),
   by
     have := (load_udl_metadata_spec exExt
       ⟨"core".data, [Metadata.udlFile "a".data, Metadata.udlFile "b".data]⟩
       "root".data "core".data).2.2 (by decide)
     simpa using this⟩

/-! ## C5: UDL metadata is folded before the in-binary group -/

/-- C5: when a component group references exactly one UDL file, the
metadata parsed from that file is folded into the `ComponentInterface`
strictly before the group's own in-binary records: the resulting fold
trace is exactly `[parsed UDL metadata, in-binary group]`. -/
theorem materialize_one_udl_first (ext : Externals) (cargo : CargoMetadata)
    (cdylib : Option Str) (group : MetadataGroup) (nm : Str) (src : Source)
    (hitems : udl_items_of group = [nm])
    (h : materialize_one ext cargo cdylib group = .ok src) :
    ∃ (pkg : Package) (m : MetadataGroup),
      find_package_by_crate_name cargo group.crate_name = .ok pkg ∧
      load_udl_metadata ext group pkg.manifest_dir group.crate_name = .ok (some m) ∧
      src.ci = [m, group] := by
  obtain ⟨pkg, udl, ci1, hpkg, hudl, hci1, hci⟩ := materialize_one_ok ext cargo cdylib group src h
  obtain ⟨m, rfl⟩ :=
    load_udl_metadata_single_ok ext group pkg.manifest_dir group.crate_name nm udl hitems hudl
  refine ⟨pkg, m, hpkg, hudl, ?_⟩
  simp only [] at hci1
  have h1 := add_metadata_ok ext [] ci1 m hci1
  subst h1
  have h2 := add_metadata_ok ext ([] ++ [m]) src.ci group hci
  simpa using h2

/-- Witness for C5: a concrete group carrying one UDL reference, with the
parse returning a distinguishable metadata group. -/
theorem materialize_one_udl_first_witness :
    ∃ (pkg : Package) (m : MetadataGroup),
      find_package_by_crate_name exCargo "core".data = .ok pkg ∧
      load_udl_metadata exUdlExt exUdlGroup pkg.manifest_dir "core".data = .ok (some m) ∧
      (⟨exPkg, "core".data, [exParsed, exUdlGroup], 0⟩ : Source).ci = [m, exUdlGroup] := by
  have := materialize_one_udl_first exUdlExt exCargo none exUdlGroup "core".data
    ⟨exPkg, "core".data, [exParsed, exUdlGroup], 0⟩ (by decide) (by decide)
  simpa using this

/-! ## C6: Package Resolver -/

/-- C6: `find_package_by_crate_name` succeeds with the unique package
having a build target whose name, hyphens normalized to underscores,
equals the crate name; zero matching packages and two or more matching
packages are both fatal errors. -/
theorem find_package_by_crate_name_spec (metadata : CargoMetadata) (crate_name : Str) :
    (∀ p : Package,
      metadata.packages.filter
          (fun p => p.targets.any fun t => replace_dashes t.name == crate_name) = [p] →
      find_package_by_crate_name metadata crate_name = .ok p) ∧
    (metadata.packages.filter
        (fun p => p.targets.any fun t => replace_dashes t.name == crate_name) = [] →
      find_package_by_crate_name metadata crate_name = .error (.packageResolve 0 crate_name)) ∧
    (2 ≤ (metadata.packages.filter
        (fun p => p.targets.any fun t => replace_dashes t.name == crate_name)).length →
      find_package_by_crate_name metadata crate_name =
        .error (.packageResolve
          (metadata.packages.filter
            (fun p => p.targets.any fun t => replace_dashes t.name == crate_name)).length
          crate_name)) := by
  refine ⟨fun p hp => ?_, fun h0 => ?_, fun h2 => ?_⟩
  · simp [find_package_by_crate_name, hp]
  · simp [find_package_by_crate_name, h0]
  · rcases hm : metadata.packages.filter
        (fun p => p.targets.any fun t => replace_dashes t.name == crate_name)
      with _ | ⟨a, _ | ⟨b, t⟩⟩
    · rw [hm] at h2; simp at h2
    · rw [hm] at h2; simp at h2
    · rw [hm] at h2
      simp [find_package_by_crate_name, hm]

/-- Witness for C6: resolving `core` in the one-package build graph
succeeds; resolving an unknown crate fails with the zero count. -/
theorem find_package_by_crate_name_spec_witness :
    find_package_by_crate_name exCargo "core".data = .ok exPkg ∧
    find_package_by_crate_name exCargo "nope".data = .error (.packageResolve 0 "nope".data) :=
  ⟨(find_package_by_crate_name_spec exCargo "core".data).1 exPkg (by decide),
   (find_package_by_crate_name_spec exCargo "nope".data).2.1 (by decide)⟩

/-! ## C7: Component Selector -/

/-- C7: with no crate filter `select_sources` yields the full source set;
with a filter it fails with `CrateNotFound` when no source has that crate
name, yields exactly the single matching source when one does, and fails
with the ambiguity error when two or more do. -/
theorem select_sources_spec (sources : List Source) :
    select_sources sources none = .ok sources ∧
    ∀ cn : Str,
      ((sources.filter fun s => s.crate_name == cn) = [] →
        select_sources sources (some cn) = .error (.crateNotFound cn)) ∧
      (∀ m : Source, (sources.filter fun s => s.crate_name == cn) = [m] →
        select_sources sources (some cn) = .ok [m]) ∧
      (2 ≤ (sources.filter fun s => s.crate_name == cn).length →
        select_sources sources (some cn) =
          .error (.ambiguousCrate (sources.filter fun s => s.crate_name == cn).length cn)) := by
  refine ⟨rfl, fun cn => ⟨fun h0 => ?_, fun m hm => ?_, fun h2 => ?_⟩⟩
  · simp [select_sources, h0]
  · simp [select_sources, hm]
  · rcases hm : sources.filter (fun s => s.crate_name == cn) with _ | ⟨a, _ | ⟨b, t⟩⟩
    · rw [hm] at h2; simp at h2
    · rw [hm] at h2; simp at h2
    · rw [hm] at h2
      simp [select_sources, hm]

/-- Witness for C7: filtering the one-source set by its own crate name,
by an absent crate name, and not filtering at all. -/
theorem select_sources_spec_witness :
    select_sources [exSrc] none = .ok [exSrc] ∧
    select_sources [exSrc] (some "core".data) = .ok [exSrc] ∧
    select_sources [exSrc] (some "app".data) = .error (.crateNotFound "app".data) :=
  ⟨(select_sources_spec [exSrc]).1,
   ((select_sources_spec [exSrc]).2 "core".data).2.1 exSrc (by decide),
   ((select_sources_spec [exSrc]).2 "app".data).1 (by decide)⟩

/-! ## String lemmas for the Artifact Identifier -/

theorem stripLeading_append_self (p s : Str) : stripLeading p (p ++ s) = some s := by
  induction p with
  | nil => rfl
  | cons a ps ih => simp [stripLeading, ih]

theorem stripLeading_eq_some {p s t : Str} (h : stripLeading p s = some t) : s = p ++ t := by
  induction p generalizing s with
  | nil =>
    simp only [stripLeading, Option.some.injEq] at h
    simp [h]
  | cons a ps ih =>
    cases s with
    | nil => simp [stripLeading] at h
    | cons c cs =>
      simp only [stripLeading] at h
      split at h
      · rename_i hac
        subst hac
        rw [List.cons_append, ih h]
      · exact Option.noConfusion h

theorem stripTrailing_append_self (suf s : Str) : stripTrailing suf (s ++ suf) = some s := by
  simp [stripTrailing, List.reverse_append, stripLeading_append_self]

theorem stripTrailing_eq_some {suf s t : Str} (h : stripTrailing suf s = some t) :
    s = t ++ suf := by
  simp only [stripTrailing, Option.map_eq_some'] at h
  obtain ⟨r, hr, hrt⟩ := h
  have hs : s.reverse = suf.reverse ++ r := stripLeading_eq_some hr
  have := congrArg List.reverse hs
  simpa [List.reverse_append, hrt] using this

/-- A strip of a trailing pattern fails whenever the last characters
disagree. -/
theorem stripTrailing_ne (suf s : Str) (a b : Char) (hab : a ≠ b)
    (ha : suf.getLast? = some a) (hb : s.getLast? = some b) :
    stripTrailing suf s = none := by
  cases h : stripTrailing suf s with
  | none => rfl
  | some t =>
    exfalso
    have heq : s = t ++ suf := stripTrailing_eq_some h
    rw [heq, List.getLast?_append_of_ne_nil t (by rintro rfl; simp at ha), ha] at hb
    exact hab (Option.some.inj hb)

theorem stripLeading_lib (rest : Str) :
    stripLeading ['l', 'i', 'b'] ('l' :: 'i' :: 'b' :: rest) = some rest := rfl

theorem stripTrailing_so_dll (X : Str) :
    stripTrailing ['.', 's', 'o'] (X ++ ['.', 'd', 'l', 'l']) = none :=
  stripTrailing_ne _ _ 'o' 'l' (by decide) (by decide)
    (by rw [List.getLast?_append_of_ne_nil X (by decide)]; decide)

theorem stripTrailing_so_dylib (X : Str) :
    stripTrailing ['.', 's', 'o'] (X ++ ['.', 'd', 'y', 'l', 'i', 'b']) = none :=
  stripTrailing_ne _ _ 'o' 'b' (by decide) (by decide)
    (by rw [List.getLast?_append_of_ne_nil X (by decide)]; decide)

theorem stripTrailing_dll_dylib (X : Str) :
    stripTrailing ['.', 'd', 'l', 'l'] (X ++ ['.', 'd', 'y', 'l', 'i', 'b']) = none :=
  stripTrailing_ne _ _ 'l' 'b' (by decide) (by decide)
    (by rw [List.getLast?_append_of_ne_nil X (by decide)]; decide)

/-! ## C3: Artifact Identifier behaviour -/

/-- C3 counterexample: the code does not require a non-empty remainder —
the base name `lib.so` yields `Some("")` — and a base name `libfoo.dll`
yields `foo`, not the full `libfoo` the claim's `<X>.dll ↦ X` reading
requires. -/
theorem calc_cdylib_name_claim_cex :
    calc_cdylib_name ⟨some "lib.so".data⟩ = some [] ∧
    calc_cdylib_name ⟨some "libfoo.dll".data⟩ = some "foo".data ∧
    some "foo".data ≠ some "libfoo".data := by decide

/-- C3 (amended): the Artifact Identifier takes the base name, strips one
leading `lib` if present, tests `.so`, `.dll`, `.dylib` in that fixed
order, and returns the remainder whenever a suffix matches — including the
empty remainder. Base names `lib<X>.so` and `lib<X>.dylib` yield `X`;
`<X>.dll` yields `X` provided the name does not begin with `lib` (which
would additionally be stripped); a base name matching no suffix, or a path
with no base name, yields nothing. -/
theorem calc_cdylib_name_spec :
    (∀ X : Str, calc_cdylib_name ⟨some ("lib".data ++ X ++ ".so".data)⟩ = some X) ∧
    (∀ X : Str, calc_cdylib_name ⟨some ("lib".data ++ X ++ ".dylib".data)⟩ = some X) ∧
    (∀ X : Str, stripLeading "lib".data (X ++ ".dll".data) = none →
      calc_cdylib_name ⟨some (X ++ ".dll".data)⟩ = some X) ∧
    (∀ filename : Str,
      strip_first_ext cdylib_extentions
          ((stripLeading "lib".data filename).getD filename) = none →
      calc_cdylib_name ⟨some filename⟩ = none) ∧
    calc_cdylib_name ⟨none⟩ = none := by
  refine ⟨fun X => ?_, fun X => ?_, fun X h => ?_, fun filename h => ?_, rfl⟩
  · simp [calc_cdylib_name, stripLeading_lib, strip_first_ext, cdylib_extentions,
      stripTrailing_append_self]
  · simp [calc_cdylib_name, stripLeading_lib, strip_first_ext, cdylib_extentions,
      stripTrailing_so_dylib, stripTrailing_dll_dylib, stripTrailing_append_self]
  · have h' : stripLeading ['l', 'i', 'b'] (X ++ ['.', 'd', 'l', 'l']) = none := h
    simp [calc_cdylib_name, h', strip_first_ext, cdylib_extentions, stripTrailing_so_dll,
      stripTrailing_append_self]
  · simpa [calc_cdylib_name] using h

/-- Witness for C3: the shapes of the amended claim at the name
`uniffi`. -/
theorem calc_cdylib_name_spec_witness :
    calc_cdylib_name ⟨some ("lib".data ++ "uniffi".data ++ ".so".data)⟩ = some "uniffi".data ∧
    calc_cdylib_name ⟨some ("uniffi".data ++ ".dll".data)⟩ = some "uniffi".data ∧
    calc_cdylib_name ⟨some "notadll.txt".data⟩ = none :=
  ⟨calc_cdylib_name_spec.1 "uniffi".data,
   calc_cdylib_name_spec.2.2.1 "uniffi".data (by decide),
   calc_cdylib_name_spec.2.2.2.1 "notadll.txt".data (by decide)⟩

/-! ## C9: the `lib` strip is unconditional -/

/-- C9: the leading `lib` is stripped before any suffix matching, for
every base name — including `.dll` names, whose platform convention has no
such marker — so `lib<X>.dll` yields `X` for every `X`, mis-stripping a
legitimate leading `lib` of the library's own name. -/
theorem calc_cdylib_name_always_strips_lib :
    (∀ rest : Str, calc_cdylib_name ⟨some ("lib".data ++ rest)⟩ =
      strip_first_ext cdylib_extentions rest) ∧
    (∀ X : Str, calc_cdylib_name ⟨some ("lib".data ++ X ++ ".dll".data)⟩ = some X) := by
  constructor
  · intro rest
    simp [calc_cdylib_name, stripLeading_lib]
  · intro X
    simp [calc_cdylib_name, stripLeading_lib, strip_first_ext, cdylib_extentions,
      stripTrailing_so_dll, stripTrailing_append_self]

/-! ## C1: contents of the dependency configuration map -/

/-- Membership in the other-sources iteration (the `split_at_mut` /
`split_first_mut` partition): exactly the elements at indices other than
`i`. -/
theorem mem_take_append_drop {α : Type} (l : List α) (i : Nat) (a : α) :
    a ∈ l.take i ++ l.drop (i + 1) ↔
      ∃ j, ∃ hj : j < l.length, j ≠ i ∧ l.get ⟨j, hj⟩ = a := by
  rw [List.mem_append, List.mem_take_iff_getElem, List.mem_drop_iff_getElem]
  constructor
  · rintro (⟨j, hj, rfl⟩ | ⟨j, hj, rfl⟩)
    · obtain ⟨h1, h2⟩ := Nat.lt_min.mp hj
      exact ⟨j, h2, by omega, by simp⟩
    · exact ⟨(i + 1) + j, by omega, by omega, by simp⟩
  · rintro ⟨j, hj, hne, rfl⟩
    rcases Nat.lt_or_ge j i with hji | hji
    · left
      exact ⟨j, Nat.lt_min.mpr ⟨hji, hj⟩, by simp⟩
    · right
      refine ⟨j - (i + 1), by omega, ?_⟩
      have hidx : i + 1 + (j - (i + 1)) = j := by omega
      simp only [hidx, List.get_eq_getElem]

/-- C1 counterexample: the membership test of the dependency map uses the
package name, not the crate identity. Source 0 (`app`) lists the package
`foo-bar` as a dependency; source 1 has package name `foo-bar` but crate
identity `foo_bar`. The map the code builds for source 0 has an entry for
source 1 even though source 1's crate identity `foo_bar` is not among the
dependency names of source 0. -/
theorem config_map_claim_cex :
    ("foo_bar".data, (1 : Config)) ∈ config_map [exAppSrc, exDepSrc] 0 ∧
    "foo_bar".data ∉ exAppSrc.package.dependencies.map Dependency.name := by decide

/-- C1 (amended): the dependency configuration map folded into the source
at index `i` contains the entry `(crate identity of T, configuration of
T)` exactly for the sources `T` at other indices whose package name is
among the dependency names listed by source `i`'s package record. -/
theorem config_map_spec (sources : List Source) (i : Nat) (source : Source)
    (hs : sources[i]? = some source) (k : Str) (v : Config) :
    (k, v) ∈ config_map sources i ↔
      ∃ j, ∃ hj : j < sources.length, j ≠ i ∧
        (sources.get ⟨j, hj⟩).package.name ∈ source.package.dependencies.map Dependency.name ∧
        (sources.get ⟨j, hj⟩).crate_name = k ∧ (sources.get ⟨j, hj⟩).config = v := by
  simp only [config_map, hs]
  rw [List.mem_filterMap]
  constructor
  · rintro ⟨s, hmem, hf⟩
    rw [mem_take_append_drop] at hmem
    obtain ⟨j, hj, hne, rfl⟩ := hmem
    by_cases hdep :
        (sources.get ⟨j, hj⟩).package.name ∈ source.package.dependencies.map Dependency.name
    · rw [if_pos hdep] at hf
      injection hf with hf1
      exact ⟨j, hj, hne, hdep, congrArg Prod.fst hf1, congrArg Prod.snd hf1⟩
    · rw [if_neg hdep] at hf
      exact Option.noConfusion hf
  · rintro ⟨j, hj, hne, hdep, hk, hv⟩
    refine ⟨sources.get ⟨j, hj⟩, ?_, ?_⟩
    · rw [mem_take_append_drop]
      exact ⟨j, hj, hne, rfl⟩
    · rw [if_pos hdep, hk, hv]

/-- Witness for C1: the map of the counterexample run, characterized by
the amended statement. -/
theorem config_map_spec_witness :
    (("foo_bar".data, (1 : Config)) ∈ config_map [exAppSrc, exDepSrc] 0 ↔
      ∃ j, ∃ hj : j < ([exAppSrc, exDepSrc] : List Source).length, j ≠ 0 ∧
        (([exAppSrc, exDepSrc] : List Source).get ⟨j, hj⟩).package.name ∈
          exAppSrc.package.dependencies.map Dependency.name ∧
        (([exAppSrc, exDepSrc] : List Source).get ⟨j, hj⟩).crate_name = "foo_bar".data ∧
        (([exAppSrc, exDepSrc] : List Source).get ⟨j, hj⟩).config = 1) :=
  config_map_spec [exAppSrc, exDepSrc] 0 exAppSrc rfl "foo_bar".data 1

/-! ## Emission-pass lemmas (shared by C8 and C10) -/

/-- With no cdylib name, requesting any non-Swift language makes the
per-source language loop fail. -/
theorem emit_source_fails (ext : Externals) (i : Nat) (src : Source)
    (target_languages : List TargetLanguage) (l : TargetLanguage)
    (hl : l ∈ target_languages) (hls : l ≠ TargetLanguage.swift) :
    (emit_source ext none i src target_languages).2.isSome = true := by
  induction target_languages with
  | nil => cases hl
  | cons a rest ih =>
    simp only [emit_source]
    by_cases ha : a = TargetLanguage.swift
    · rw [if_neg (fun hc => hc.2 ha)]
      cases hw : ext.write_bindings src.config src.ci a with
      | error e => simp
      | ok u =>
        have hl' : l ∈ rest := by
          rcases List.mem_cons.mp hl with h1 | h1
          · exact absurd (h1.trans ha) hls
          · exact h1
        simpa using ih hl'
    · rw [if_pos ⟨by trivial, ha⟩]
      simp

/-- With no cdylib name, every pair the per-source loop hands to the
emitter is a Swift pair. -/
theorem emit_source_swift_only (ext : Externals) (i : Nat) (src : Source)
    (target_languages : List TargetLanguage) :
    ∀ p ∈ (emit_source ext none i src target_languages).1, p.2 = TargetLanguage.swift := by
  induction target_languages with
  | nil => intro p hp; simp [emit_source] at hp
  | cons a rest ih =>
    intro p hp
    simp only [emit_source] at hp
    by_cases ha : a = TargetLanguage.swift
    · rw [if_neg (fun hc => hc.2 ha)] at hp
      cases hw : ext.write_bindings src.config src.ci a with
      | error e =>
        rw [hw] at hp
        simp at hp
        rw [hp]
        exact ha
      | ok u =>
        rw [hw] at hp
        simp at hp
        rcases hp with rfl | hp
        · exact ha
        · exact ih p hp
    · rw [if_pos ⟨by trivial, ha⟩] at hp
      simp at hp

/-- With no cdylib name and at least one source, requesting any non-Swift
language makes the whole emission pass fail. -/
theorem emit_loop_fails (ext : Externals) (i : Nat) (sources : List Source)
    (target_languages : List TargetLanguage) (l : TargetLanguage)
    (hne : sources ≠ []) (hl : l ∈ target_languages) (hls : l ≠ TargetLanguage.swift) :
    (emit_loop ext none i sources target_languages).2.isSome = true := by
  cases sources with
  | nil => exact absurd rfl hne
  | cons s rest =>
    simp only [emit_loop]
    cases hr : (emit_source ext none i s target_languages).2 with
    | some e => simp
    | none =>
      have := emit_source_fails ext i s target_languages l hl hls
      rw [hr] at this
      simp at this

/-- With no cdylib name, every pair the emission pass hands to the emitter
is a Swift pair. -/
theorem emit_loop_swift_only (ext : Externals) (i : Nat) (sources : List Source)
    (target_languages : List TargetLanguage) :
    ∀ p ∈ (emit_loop ext none i sources target_languages).1, p.2 = TargetLanguage.swift := by
  induction sources generalizing i with
  | nil => intro p hp; simp [emit_loop] at hp
  | cons s rest ih =>
    intro p hp
    simp only [emit_loop] at hp
    cases hr : (emit_source ext none i s target_languages).2 with
    | some e =>
      rw [hr] at hp
      exact emit_source_swift_only ext i s target_languages p hp
    | none =>
      rw [hr] at hp
      simp only [] at hp
      rcases List.mem_append.mp hp with h1 | h1
      · exact emit_source_swift_only ext i s target_languages p h1
      · exact ih (i + 1) p h1

/-- With only Swift requested and an emitter that always succeeds, the
per-source loop succeeds. -/
theorem emit_source_all_swift_ok (ext : Externals) (i : Nat) (src : Source)
    (target_languages : List TargetLanguage)
    (hall : ∀ l ∈ target_languages, l = TargetLanguage.swift)
    (hw : ∀ (c : Config) (ci : ComponentInterface) (l : TargetLanguage),
      ext.write_bindings c ci l = .ok ()) :
    (emit_source ext none i src target_languages).2 = none := by
  induction target_languages with
  | nil => rfl
  | cons a rest ih =>
    have ha : a = TargetLanguage.swift := hall a (by simp)
    simp only [emit_source]
    rw [if_neg (fun hc => hc.2 ha), hw]
    exact ih fun l hl => hall l (by simp [hl])

/-- With only Swift requested and an emitter that always succeeds, the
whole emission pass succeeds. -/
theorem emit_loop_all_swift_ok (ext : Externals) (i : Nat) (sources : List Source)
    (target_languages : List TargetLanguage)
    (hall : ∀ l ∈ target_languages, l = TargetLanguage.swift)
    (hw : ∀ (c : Config) (ci : ComponentInterface) (l : TargetLanguage),
      ext.write_bindings c ci l = .ok ()) :
    (emit_loop ext none i sources target_languages).2 = none := by
  induction sources generalizing i with
  | nil => rfl
  | cons s rest ih =>
    have h1 := emit_source_all_swift_ok ext i s target_languages hall hw
    simp only [emit_loop, h1]
    exact ih (i + 1)

/-- Reduction of `generate_bindings` to its emission pass, given the
earlier stages' outcomes. -/
theorem generate_bindings_reduce (ext : Externals) (cargo : CargoMetadata)
    (groups : List MetadataGroup) (library_path : Utf8Path) (crate_name : Option Str)
    (target_languages : List TargetLanguage) (sources selected : List Source)
    (hcd : calc_cdylib_name library_path = none)
    (hfs : find_sources ext cargo none groups = .ok sources)
    (hsel : select_sources (inherit_configs ext sources) crate_name = .ok selected) :
    generate_bindings ext (.ok cargo) groups library_path crate_name target_languages =
      (match (emit_loop ext none 0 selected target_languages).2 with
       | some e => .error e
       | none => .ok selected) := by
  simp only [generate_bindings, hcd, hfs, hsel]

/-- With no cdylib name, at least one selected source and a requested
non-Swift language, the run fails. -/
theorem generate_bindings_nonswift_error (ext : Externals) (cargo : CargoMetadata)
    (groups : List MetadataGroup) (library_path : Utf8Path) (crate_name : Option Str)
    (target_languages : List TargetLanguage) (sources selected : List Source)
    (l : TargetLanguage)
    (hcd : calc_cdylib_name library_path = none)
    (hfs : find_sources ext cargo none groups = .ok sources)
    (hsel : select_sources (inherit_configs ext sources) crate_name = .ok selected)
    (hne : selected ≠ []) (hl : l ∈ target_languages) (hls : l ≠ TargetLanguage.swift) :
    ∃ e, generate_bindings ext (.ok cargo) groups library_path crate_name target_languages =
      .error e := by
  have hfail := emit_loop_fails ext 0 selected target_languages l hne hl hls
  rw [generate_bindings_reduce ext cargo groups library_path crate_name target_languages
    sources selected hcd hfs hsel]
  cases he : (emit_loop ext none 0 selected target_languages).2 with
  | some e => exact ⟨e, rfl⟩
  | none =>
    rw [he] at hfail
    simp at hfail

/-! ## C8: validation of dynamic-library-requiring languages -/

/-- C8 counterexample: a run whose artifact is not a dynamic library and
which requests Kotlin (a language requiring one) nonetheless succeeds when
the binary contains no components at all, because the validation runs per
(source, language) pair and there are no pairs. -/
theorem generate_bindings_no_sources_cex :
    calc_cdylib_name exTxtPath = none ∧
    TargetLanguage.kotlin ≠ TargetLanguage.swift ∧
    generate_bindings exExt (.ok exCargo) [] exTxtPath none [TargetLanguage.kotlin] =
      .ok [] := by decide

/-- C8 (amended): in every run in which the Artifact Identifier returned
nothing, at least one Source survives selection and some requested
language is not Swift (i.e. requires a dynamic library), the run fails
fatally; the validation runs per (source, language) pair before the
emitter is invoked for that pair, so the emitter is never invoked for a
failing pair — with no cdylib name it is only ever invoked for Swift
pairs. -/
theorem generate_bindings_requires_cdylib (ext : Externals) (cargo : CargoMetadata)
    (groups : List MetadataGroup) (library_path : Utf8Path) (crate_name : Option Str)
    (target_languages : List TargetLanguage) (sources selected : List Source)
    (l : TargetLanguage)
    (hcd : calc_cdylib_name library_path = none)
    (hfs : find_sources ext cargo none groups = .ok sources)
    (hsel : select_sources (inherit_configs ext sources) crate_name = .ok selected)
    (hne : selected ≠ []) (hl : l ∈ target_languages) (hls : l ≠ TargetLanguage.swift) :
    (∃ e, generate_bindings ext (.ok cargo) groups library_path crate_name target_languages =
        .error e) ∧
    ∀ p ∈ (emit_loop ext none 0 selected target_languages).1, p.2 = TargetLanguage.swift :=
  ⟨generate_bindings_nonswift_error ext cargo groups library_path crate_name target_languages
      sources selected l hcd hfs hsel hne hl hls,
   emit_loop_swift_only ext 0 selected target_languages⟩

/-- Witness for C8: one `core` source, Kotlin requested, no cdylib. -/
theorem generate_bindings_requires_cdylib_witness :
    (∃ e, generate_bindings exExt (.ok exCargo) [exGroup] exTxtPath none
        [TargetLanguage.kotlin] = .error e) ∧
    ∀ p ∈ (emit_loop exExt none 0 [exSrc] [TargetLanguage.kotlin]).1,
      p.2 = TargetLanguage.swift :=
  generate_bindings_requires_cdylib exExt exCargo [exGroup] exTxtPath none
    [TargetLanguage.kotlin] [exSrc] [exSrc] TargetLanguage.kotlin (by decide) (by decide)
    (by decide) (by decide) (by decide) (by decide)

/-! ## C10: Swift is the only language served without a cdylib -/

/-- C10 counterexample: Python is not Swift and the artifact is not a
dynamic library, yet the run succeeds when no component exists, so "every
requested non-Swift language aborts the run" fails without at least one
selected Source. -/
theorem generate_bindings_no_sources_python_cex :
    calc_cdylib_name exTxtPath = none ∧
    TargetLanguage.python ≠ TargetLanguage.swift ∧
    generate_bindings exExt (.ok exCargo) [] exTxtPath none [TargetLanguage.python] =
      .ok [] := by decide

/-- C10 (amended): when the Artifact Identifier returns nothing, the
emitter is only ever invoked for Swift pairs; provided at least one Source
survives selection, every requested non-Swift language makes the run
abort; and a run requesting only Swift passes validation (succeeding
whenever the emitter itself succeeds) — so Swift is exactly the set of
languages served without a dynamic library. -/
theorem generate_bindings_swift_no_cdylib (ext : Externals) (cargo : CargoMetadata)
    (groups : List MetadataGroup) (library_path : Utf8Path) (crate_name : Option Str)
    (target_languages : List TargetLanguage) (sources selected : List Source)
    (hcd : calc_cdylib_name library_path = none)
    (hfs : find_sources ext cargo none groups = .ok sources)
    (hsel : select_sources (inherit_configs ext sources) crate_name = .ok selected) :
    (∀ p ∈ (emit_loop ext none 0 selected target_languages).1, p.2 = TargetLanguage.swift) ∧
    (∀ l : TargetLanguage, selected ≠ [] → l ∈ target_languages →
      l ≠ TargetLanguage.swift →
      ∃ e, generate_bindings ext (.ok cargo) groups library_path crate_name
          target_languages = .error e) ∧
    ((∀ l ∈ target_languages, l = TargetLanguage.swift) →
      (∀ (c : Config) (ci : ComponentInterface) (l : TargetLanguage),
        ext.write_bindings c ci l = .ok ()) →
      generate_bindings ext (.ok cargo) groups library_path crate_name target_languages =
        .ok selected) := by
  refine ⟨emit_loop_swift_only ext 0 selected target_languages,
    fun l hne hl hls => generate_bindings_nonswift_error ext cargo groups library_path
      crate_name target_languages sources selected l hcd hfs hsel hne hl hls,
    fun hall hw => ?_⟩
  rw [generate_bindings_reduce ext cargo groups library_path crate_name target_languages
    sources selected hcd hfs hsel,
    emit_loop_all_swift_ok ext 0 selected target_languages hall hw]

/-- Witness for C10: a Swift-only run with no cdylib succeeds. -/
theorem generate_bindings_swift_no_cdylib_witness :
    generate_bindings exExt (.ok exCargo) [exGroup] exTxtPath none [TargetLanguage.swift] =
      .ok [exSrc] :=
  (generate_bindings_swift_no_cdylib exExt exCargo [exGroup] exTxtPath none
    [TargetLanguage.swift] [exSrc] [exSrc] (by decide) (by decide) (by decide)).2.2
    (by decide) (fun c ci l => rfl)

/-! ## C2: phase ordering of a run -/

theorem phase_of_mem_mats {n : Nat} {e : Event} (h : e ∈ (List.range n).map Event.mat) :
    phase e = 0 := by
  obtain ⟨j, _, rfl⟩ := List.mem_map.mp h
  rfl

theorem phase_of_mem_folds {n : Nat} {e : Event} (h : e ∈ (List.range n).map Event.fold) :
    phase e = 1 := by
  obtain ⟨j, _, rfl⟩ := List.mem_map.mp h
  rfl

theorem phase_of_mem_emit_trace {ext : Externals} {cdylib_name : Option Str}
    {selection : Except Err (List Source)} {target_languages : List TargetLanguage}
    {e : Event} (h : e ∈ emit_trace ext cdylib_name selection target_languages) :
    phase e = 2 := by
  cases selection with
  | error err => simp [emit_trace] at h
  | ok selected =>
    simp only [emit_trace] at h
    obtain ⟨p, _, rfl⟩ := List.mem_map.mp h
    rfl

theorem pairwise_phase_of_const (l : List Event) (c : Nat) (h : ∀ e ∈ l, phase e = c) :
    l.Pairwise fun a b => phase a ≤ phase b := by
  induction l with
  | nil => exact List.Pairwise.nil
  | cons a t ih =>
    refine List.Pairwise.cons (fun b hb => ?_) (ih fun e he => h e (by simp [he]))
    rw [h a (by simp), h b (by simp [hb])]

/-- The trace of a run whose materialization succeeded. -/
theorem run_trace_ok (ext : Externals) (cargo : CargoMetadata) (groups : List MetadataGroup)
    (library_path : Utf8Path) (crate_name : Option Str)
    (target_languages : List TargetLanguage) (sources : List Source)
    (hfs : find_sources ext cargo (calc_cdylib_name library_path) groups = .ok sources) :
    run_trace ext (.ok cargo) groups library_path crate_name target_languages =
      (List.range sources.length).map Event.mat
        ++ (List.range sources.length).map Event.fold
        ++ emit_trace ext (calc_cdylib_name library_path)
            (select_sources (inherit_configs ext sources) crate_name) target_languages := by
  simp only [run_trace, hfs]

/-- C2: in every run the trace is ordered by pipeline phase — every
materialization precedes every configuration fold, and every fold precedes
every emitter invocation; a fold event for index `i` occurs only in runs
whose materialization produced all sources, with `i` one of them; and in
such runs each source index is materialized exactly once and folded
exactly once. -/
theorem run_trace_spec (ext : Externals) (cargo_result : Except Err CargoMetadata)
    (groups : List MetadataGroup) (library_path : Utf8Path) (crate_name : Option Str)
    (target_languages : List TargetLanguage) :
    (run_trace ext cargo_result groups library_path crate_name target_languages).Pairwise
        (fun a b => phase a ≤ phase b) ∧
    (∀ i : Nat,
      Event.fold i ∈ run_trace ext cargo_result groups library_path crate_name
          target_languages →
      ∃ (cargo_metadata : CargoMetadata) (sources : List Source),
        cargo_result = .ok cargo_metadata ∧
        find_sources ext cargo_metadata (calc_cdylib_name library_path) groups =
          .ok sources ∧
        i < sources.length) ∧
    (∀ (cargo_metadata : CargoMetadata) (sources : List Source),
      cargo_result = .ok cargo_metadata →
      find_sources ext cargo_metadata (calc_cdylib_name library_path) groups = .ok sources →
      ∀ i : Nat, i < sources.length →
        (run_trace ext cargo_result groups library_path crate_name
            target_languages).count (Event.mat i) = 1 ∧
        (run_trace ext cargo_result groups library_path crate_name
            target_languages).count (Event.fold i) = 1) := by
  cases cargo_result with
  | error e =>
    refine ⟨List.Pairwise.nil, fun i hi => absurd hi (by simp [run_trace]), ?_⟩
    intro cm s hcm
    exact absurd hcm (by simp)
  | ok cargo =>
    cases hfs : find_sources ext cargo (calc_cdylib_name library_path) groups with
    | error e =>
      have htr : run_trace ext (.ok cargo) groups library_path crate_name target_languages =
          (List.range
            (groups.takeWhile fun g =>
              (materialize_one ext cargo (calc_cdylib_name library_path) g).isOk).length).map
            Event.mat := by
        simp only [run_trace, hfs]
      refine ⟨?_, ?_, ?_⟩
      · rw [htr]
        exact pairwise_phase_of_const _ 0 fun e he => phase_of_mem_mats he
      · intro i hi
        rw [htr] at hi
        obtain ⟨j, _, hj⟩ := List.mem_map.mp hi
        exact absurd hj (by simp)
      · intro cm s hcm hfs2
        injection hcm with hcm1
        subst hcm1
        exact absurd (hfs.symm.trans hfs2) (by simp)
    | ok sources =>
      have htr := run_trace_ok ext cargo groups library_path crate_name target_languages
        sources hfs
      refine ⟨?_, ?_, ?_⟩
      · rw [htr]
        refine List.pairwise_append.mpr
          ⟨List.pairwise_append.mpr
            ⟨pairwise_phase_of_const _ 0 fun e he => phase_of_mem_mats he,
             pairwise_phase_of_const _ 1 fun e he => phase_of_mem_folds he,
             fun a ha b hb => by
               rw [phase_of_mem_mats ha, phase_of_mem_folds hb]
               omega⟩,
           pairwise_phase_of_const _ 2 fun e he => phase_of_mem_emit_trace he,
           fun a ha b hb => ?_⟩
        rw [phase_of_mem_emit_trace hb]
        rcases List.mem_append.mp ha with h2 | h2
        · rw [phase_of_mem_mats h2]; omega
        · rw [phase_of_mem_folds h2]; omega
      · intro i hi
        rw [htr] at hi
        rcases List.mem_append.mp hi with h1 | h1
        · rcases List.mem_append.mp h1 with h2 | h2
          · obtain ⟨j, _, hj⟩ := List.mem_map.mp h2
            exact absurd hj (by simp)
          · obtain ⟨j, hjr, hj⟩ := List.mem_map.mp h2
            injection hj with hji
            subst hji
            exact ⟨cargo, sources, rfl, hfs, List.mem_range.mp hjr⟩
        · have := phase_of_mem_emit_trace h1
          simp [phase] at this
      · intro cm s hcm hfs2 i hi
        injection hcm with hcm1
        subst hcm1
        have hss : sources = s := by
          have := hfs.symm.trans hfs2
          injection this
        subst hss
        rw [htr]
        have hinj_mat : Function.Injective Event.mat := fun a b h => by injection h
        have hinj_fold : Function.Injective Event.fold := fun a b h => by injection h
        have hmem : i ∈ List.range sources.length := List.mem_range.mpr hi
        constructor
        · rw [List.count_append, List.count_append]
          have c1 : ((List.range sources.length).map Event.mat).count (Event.mat i) = 1 := by
            rw [List.count_map_of_injective _ Event.mat hinj_mat i]
            exact List.count_eq_one_of_mem (List.nodup_range _) hmem
          have c2 : ((List.range sources.length).map Event.fold).count (Event.mat i) = 0 :=
            List.count_eq_zero.mpr fun hm => by simp [phase_of_mem_folds hm] at *
          have c3 :
              (emit_trace ext (calc_cdylib_name library_path)
                (select_sources (inherit_configs ext sources) crate_name)
                target_languages).count (Event.mat i) = 0 :=
            List.count_eq_zero.mpr fun hm => by
              have := phase_of_mem_emit_trace hm
              simp [phase] at this
          omega
        · rw [List.count_append, List.count_append]
          have c1 : ((List.range sources.length).map Event.mat).count (Event.fold i) = 0 :=
            List.count_eq_zero.mpr fun hm => by simp [phase_of_mem_mats hm] at *
          have c2 : ((List.range sources.length).map Event.fold).count (Event.fold i) = 1 := by
            rw [List.count_map_of_injective _ Event.fold hinj_fold i]
            exact List.count_eq_one_of_mem (List.nodup_range _) hmem
          have c3 :
              (emit_trace ext (calc_cdylib_name library_path)
                (select_sources (inherit_configs ext sources) crate_name)
                target_languages).count (Event.fold i) = 0 :=
            List.count_eq_zero.mpr fun hm => by
              have := phase_of_mem_emit_trace hm
              simp [phase] at this
          omega

/-- Witness for C2: the one-source Swift run materializes index 0 once and
folds it once. -/
theorem run_trace_spec_witness :
    (run_trace exExt (.ok exCargo) [exGroup] exTxtPath none [TargetLanguage.swift]).count
        (Event.mat 0) = 1 ∧
    (run_trace exExt (.ok exCargo) [exGroup] exTxtPath none [TargetLanguage.swift]).count
        (Event.fold 0) = 1 :=
  (run_trace_spec exExt (.ok exCargo) [exGroup] exTxtPath none [TargetLanguage.swift]).2.2
    exCargo [exSrc] rfl (by decide) 0 (by decide)

end LibraryMode
